import Mathlib

/-!
Shallow embedding of the new-england-jobs client (config.js, filters.js,
config-template.js api module, alerts.js) and proofs about its
classification, scoring, filtering, query-planning, retry and alert logic.

Strings are modelled as Lean `String`; all strings appearing in the
repository are ASCII, so the ASCII `Char.toLower`/`Char.toUpper` model
JavaScript `toLowerCase`/`toUpperCase` exactly on the relevant inputs.
Salary fields are modelled as `Nat` where `0` encodes JavaScript
`null`/`undefined`/`0`: the source only ever reads the salary fields
through `||`-chains, under which these three values are indistinguishable.
-/

namespace NEJobs

/-- JavaScript `String.prototype.toLowerCase` (ASCII). -/
def jsLower (s : String) : String := String.mk (s.data.map Char.toLower)

/-- JavaScript `String.prototype.toUpperCase` (ASCII). -/
def jsUpper (s : String) : String := String.mk (s.data.map Char.toUpper)

/-- JavaScript `String.prototype.trim`: drop leading and trailing whitespace. -/
def jsTrim (s : String) : String :=
  String.mk (((s.data.dropWhile Char.isWhitespace).reverse.dropWhile Char.isWhitespace).reverse)

/-- Helper for `containsChars`: the first list is a leading segment of the second. -/
def startsWithChars : List Char → List Char → Bool
  | [], _ => true
  | _ :: _, [] => false
  | a :: as, b :: bs => a == b && startsWithChars as bs

/-- Helper for `strIncludes`: the first list occurs contiguously in the second. -/
def containsChars (pat : List Char) : List Char → Bool
  | [] => startsWithChars pat []
  | b :: bs => startsWithChars pat (b :: bs) || containsChars pat bs

/-- JavaScript `hay.includes(pat)` for strings. -/
def strIncludes (hay pat : String) : Bool := containsChars pat.data hay.data

/-- JavaScript `String.prototype.split` on a character class: cut the character
list at every separator character, keeping (possibly empty) fragments.
Empty fragments are immaterial downstream because every caller filters
fragments to length `> 1`, exactly as the regex split `/[\s,]+/` would. -/
def splitChars (p : Char → Bool) : List Char → List Char → List String
  | acc, [] => [String.mk acc.reverse]
  | acc, c :: cs =>
    if p c then String.mk acc.reverse :: splitChars p [] cs
    else splitChars p (c :: acc) cs

/-- JavaScript `Array.prototype.join(' ')`. -/
def joinSpace : List String → String
  | [] => ""
  | [s] => s
  | s :: rest => s ++ " " ++ joinSpace rest

/-- One insertion into the membership-based accumulator of `jsSetDedup`. -/
def dedupStep (acc : List String) (x : String) : List String :=
  if x ∈ acc then acc else acc ++ [x]

/-- JavaScript `[...new Set(l)]`: deduplicate keeping first occurrences in order. -/
def jsSetDedup (l : List String) : List String :=
  l.foldl dedupStep []

/-! ## CONFIG (js/config.js) -/

/-- One entry of `CONFIG.NE_STATES`. -/
structure StateInfo where
  name : String
  cities : List String
  deriving Repr, DecidableEq

/-- CONFIG.NE_STATES, in the object's insertion (= iteration) order. -/
def NE_STATES : List (String × StateInfo) :=
  [ ("CT", ⟨"Connecticut", ["Hartford", "New Haven", "Stamford", "Bridgeport", "Waterbury"]⟩)
  , ("MA", ⟨"Massachusetts", ["Boston", "Cambridge", "Worcester", "Springfield", "Lowell"]⟩)
  , ("ME", ⟨"Maine", ["Portland", "Lewiston", "Bangor", "South Portland", "Auburn"]⟩)
  , ("NH", ⟨"New Hampshire", ["Manchester", "Nashua", "Concord", "Dover", "Rochester"]⟩)
  , ("RI", ⟨"Rhode Island", ["Providence", "Warwick", "Cranston", "Pawtucket", "East Providence"]⟩)
  , ("VT", ⟨"Vermont", ["Burlington", "South Burlington", "Rutland", "Barre", "Montpelier"]⟩) ]

/-- Keys of `CONFIG.JOB_CATEGORIES`, in insertion order. -/
def JOB_CATEGORY_KEYS : List String :=
  ["remote", "remote-us", "hybrid-ne", "onsite-ne", "remote-ne-company"]

/-- The value filters.js reads as `CONFIG.SPORTS_THEMES || []`: config.js does
not define a `SPORTS_THEMES` property, so the read yields the empty list. -/
def SPORTS_THEMES : List String := []

/-- The value filters.js reads as `CONFIG.MARKETING_KEYWORDS || []`: config.js
does not define a `MARKETING_KEYWORDS` property, so the read yields the empty list. -/
def MARKETING_KEYWORDS : List String := []

/-- CONFIG.RATE_LIMIT.maxRequests. -/
def RATE_LIMIT_maxRequests : Nat := 10

/-- CONFIG.RATE_LIMIT.windowMs. -/
def RATE_LIMIT_windowMs : Nat := 60000

/-! ## Data model -/

/-- A job listing as consumed from the JSearch API response. `job_highlights`
is flattened into its two list-valued properties. `job_posted_ts` stands for
the numeric value of `new Date(job.job_posted_at_datetime_utc || 0)` (date
parsing is a host primitive, so the parsed timestamp is the field modelled). -/
structure Job where
  job_id : String := ""
  job_title : String := ""
  job_description : String := ""
  employer_name : String := ""
  job_is_remote : Bool := false
  job_city : String := ""
  job_state : String := ""
  job_country : String := ""
  job_min_salary : Nat := 0
  job_max_salary : Nat := 0
  job_qualifications : List String := []
  job_responsibilities : List String := []
  job_posted_ts : Nat := 0
  deriving Repr, DecidableEq

/-- Result of `Filters.isQualifyingJob`. -/
structure Qualification where
  qualifies : Bool
  category : String
  reason : String
  deriving Repr, DecidableEq

/-! ## Filters module (js/filters.js) -/

/-- Module constant `NE_STATE_CODES`. -/
def NE_STATE_CODES : List String := ["CT", "MA", "ME", "NH", "RI", "VT"]

/-- Module constant `NE_STATE_NAMES` (name, code) in insertion order. -/
def NE_STATE_NAMES : List (String × String) :=
  [ ("connecticut", "CT"), ("massachusetts", "MA"), ("maine", "ME")
  , ("new hampshire", "NH"), ("rhode island", "RI"), ("vermont", "VT") ]

/-- Module constant `ALL_NE_CITIES`: all configured cities, lowercased. -/
def ALL_NE_CITIES : List String :=
  (NE_STATES.flatMap (fun p => p.2.cities)).map jsLower

/-- filters.js `isNELocation(job)`. -/
def isNELocation (job : Job) : Bool :=
  let state := jsTrim job.job_state
  let city := jsTrim (jsLower job.job_city)
  let description := jsLower job.job_description
  if jsUpper state ∈ NE_STATE_CODES then true
  else if NE_STATE_NAMES.any (fun nc =>
      jsLower state == nc.1
        || (strIncludes description nc.1 && decide (city ∈ ALL_NE_CITIES))) then true
  else decide (city ∈ ALL_NE_CITIES)

/-- The local `isInNEState` computed inside `isQualifyingJob`. -/
def isInNEState (job : Job) : Bool :=
  (jsTrim (jsUpper job.job_state)) ∈ NE_STATE_CODES || isNELocation job

/-- The local `isHybrid` computed inside `isQualifyingJob`: the case-insensitive
regex test `/hybrid/i` on the already-lowercased title or description. -/
def isHybrid (job : Job) : Bool :=
  strIncludes (jsLower job.job_title) "hybrid"
    || strIncludes (jsLower job.job_description) "hybrid"

/-- filters.js `isQualifyingJob(job)`. -/
def isQualifyingJob (job : Job) : Qualification :=
  let isRemote := job.job_is_remote
  let jobState := jsTrim (jsUpper job.job_state)
  let jobCountry := jsTrim (jsUpper job.job_country)
  if isRemote && isInNEState job then
    { qualifies := true, category := "remote-ne-company"
    , reason := "Remote position from " ++ job.job_city ++ ", " ++ jobState ++ " company" }
  else if isRemote && jobCountry == "US" then
    { qualifies := true, category := "remote-us"
    , reason := "Remote position available in the US" }
  else if isRemote then
    { qualifies := true, category := "remote"
    , reason := "Fully remote position" }
  else if isInNEState job && isHybrid job then
    { qualifies := true, category := "hybrid-ne"
    , reason := "Hybrid position in " ++ job.job_city ++ ", " ++ jobState }
  else if isInNEState job then
    { qualifies := true, category := "onsite-ne"
    , reason := "On-site position in " ++ job.job_city ++ ", " ++ jobState }
  else if isHybrid job then
    { qualifies := true, category := "hybrid-ne"
    , reason := "Hybrid position in " ++ job.job_city ++ ", "
        ++ (if jobState = "" then jobCountry else jobState) }
  else
    { qualifies := true, category := "onsite-ne"
    , reason := "On-site position in " ++ job.job_city ++ ", "
        ++ (if jobState = "" then jobCountry else jobState) }

/-- filters.js `getJobNEState(job)`. -/
def getJobNEState (job : Job) : Option String :=
  let state := jsUpper (jsTrim job.job_state)
  if state ∈ NE_STATE_CODES then some state
  else
    let stateLower := jsLower (jsTrim job.job_state)
    match NE_STATE_NAMES.find? (fun nc => nc.1 == stateLower) with
    | some nc => some nc.2
    | none =>
      let city := jsTrim (jsLower job.job_city)
      match NE_STATES.find? (fun p => p.2.cities.any (fun c => jsLower c == city)) with
      | some p => some p.1
      | none => none

/-! ## Relevance scorer (filters.js `scoreJobRelevance`)

The JavaScript accumulator only ever adds the nonnegative constants 0.5, 1
and 1.5 (exact binary fractions far below 2^53) and applies `Math.min`, so
scaling every weight, cap and intermediate value by 2 represents the whole
computation exactly in `ℕ`: weights 0.5/1/1.5 become 1/2/3 half-points and
the caps 3/2/1/2 become 6/4/2/4 half-points. `Math.round` (round half away
from zero, here on nonnegative input) becomes `(total + 1) / 2` in whole
points, and the final `Math.min(10, ·)` is `min 10` in whole points. The
`ℕ` codomain expresses that the result is a nonnegative integer, which for
this arithmetic it provably is (`Math.round` of a nonnegative sum). -/

/-- Tokenization of the keywords string:
`keywords.toLowerCase().split(/[\s,]+/).filter(t => t.length > 1)`. -/
def tokenize (keywords : String) : List String :=
  (splitChars (fun c => c.isWhitespace || c == ',') [] (jsLower keywords).data).filter
    (fun t => t.length > 1)

/-- Normalization of the themes array:
`themes.map(t => t.toLowerCase().trim()).filter(t => t.length > 1)`. -/
def normThemes (themes : List String) : List String :=
  (themes.map (fun t => jsTrim (jsLower t))).filter (fun t => t.length > 1)

/-- The `titleMatches` counting loop: one increment per term (with
multiplicity) whose text occurs in the title. -/
def countMatches (text : String) : List String → Nat
  | [] => 0
  | t :: ts => (if strIncludes text t then 1 else 0) + countMatches text ts

/-- The `contentMatches` accumulation loop over description, qualifications
and responsibilities text, in half-points (per term: description hit 1,
qualifications hit 0.5, responsibilities hit 0.5). -/
def accumContent (description qualifications responsibilities : String) : List String → Nat
  | [] => 0
  | t :: ts =>
    (if strIncludes description t then 2 else 0)
      + (if strIncludes qualifications t then 1 else 0)
      + (if strIncludes responsibilities t then 1 else 0)
      + accumContent description qualifications responsibilities ts

/-- The `themeMatches` accumulation loop over title and description, in
half-points (title hit 1, description hit 0.5). -/
def accumThemes (title description : String) : List String → Nat
  | [] => 0
  | th :: ts =>
    (if strIncludes title th then 2 else 0)
      + (if strIncludes description th then 1 else 0)
      + accumThemes title description ts

/-- A `for … { if (text.includes(t)) { score += bonus; break; } }` loop:
the bonus (in half-points) is granted once, for the first matching term, if any. -/
def firstHitBonus (bonus : Nat) (text : String) : List String → Nat
  | [] => 0
  | t :: ts => if strIncludes text t then bonus else firstHitBonus bonus text ts

/-- filters.js `scoreJobRelevance(job, keywords, themes)`, with the two
configured bonus lists (read by the source as `CONFIG.SPORTS_THEMES || []`
and `CONFIG.MARKETING_KEYWORDS || []`) passed explicitly. Buckets are
accumulated in half-points (weights 1.5/1/0.5 are 3/2/1; caps 3/2/1/2 are
6/4/2/4); `min 10 ((total + 1) / 2)` is `Math.min(10, Math.round(total/2))`
on the nonnegative half-point total. -/
def scoreJobRelevanceAux (sportsThemes marketingKeywords : List String)
    (job : Job) (keywords : String) (themes : List String) : Nat :=
  if keywords = "" ∧ themes = [] then 5
  else
    let searchTerms := tokenize keywords
    let themeTerms := normThemes themes
    let title := jsLower job.job_title
    let description := jsLower job.job_description
    let company := jsLower job.employer_name
    let allText := title ++ " " ++ description ++ " " ++ company
    let qualifications := jsLower (joinSpace job.job_qualifications)
    let responsibilities := jsLower (joinSpace job.job_responsibilities)
    let titleScore := min 6 (3 * countMatches title searchTerms)
    let contentScore :=
      min 4 (accumContent description qualifications responsibilities searchTerms)
    let themeScore := min 2 (accumThemes title description themeTerms)
    let sportsScore :=
      min 4 (firstHitBonus 3 title sportsThemes + firstHitBonus 1 allText sportsThemes)
    let marketingScore := firstHitBonus 2 title marketingKeywords
    let companyScore := firstHitBonus 2 company searchTerms
    min 10 ((titleScore + contentScore + themeScore + sportsScore
      + marketingScore + companyScore + 1) / 2)

/-- filters.js `scoreJobRelevance` as shipped, with the repository's
configured bonus lists. -/
def scoreJobRelevance (job : Job) (keywords : String) (themes : List String := []) : Nat :=
  scoreJobRelevanceAux SPORTS_THEMES MARKETING_KEYWORDS job keywords themes

/-! ## FilterEngine (filters.js `applyFilters`, `sortJobs`) -/

/-- Filter criteria, with the defaults destructured in `applyFilters`. -/
structure FilterOptions where
  categories : List String := JOB_CATEGORY_KEYS
  states : List String := NE_STATES.map Prod.fst
  minSalary : Nat := 0
  keywords : String := ""
  themes : List String := []
  sortBy : String := "relevance"
  deriving Repr

/-- A job enriched with the `_qualification`, `_relevanceScore` and
`_neState` annotations attached by `applyFilters`. -/
structure AnnotatedJob where
  job : Job
  qualification : Qualification
  relevanceScore : Nat
  neState : Option String
  deriving Repr, DecidableEq

/-- The annotation step of `applyFilters`. -/
def annotateJob (opts : FilterOptions) (job : Job) : AnnotatedJob :=
  { job := job
  , qualification := isQualifyingJob job
  , relevanceScore := scoreJobRelevance job opts.keywords opts.themes
  , neState := getJobNEState job }

/-- The `job.job_max_salary || job.job_min_salary || 0` read (0 encodes null). -/
def bestSalary (job : Job) : Nat :=
  if job.job_max_salary ≠ 0 then job.job_max_salary else job.job_min_salary

/-- The local `locationCategories` list in the `applyFilters` predicate. -/
def locationCategories : List String := ["hybrid-ne", "onsite-ne", "remote-ne-company"]

/-- The filter predicate of `applyFilters`. -/
def jobPasses (categoriesSet statesSet : List String) (minSalary : Nat)
    (aj : AnnotatedJob) : Bool :=
  if !aj.qualification.qualifies then false
  else if !decide (aj.qualification.category ∈ categoriesSet) then false
  else if decide (aj.qualification.category ∈ locationCategories)
      && (match aj.neState with
          | some s => !decide (s ∈ statesSet)
          | none => false) then false
  else if decide (0 < minSalary)
      && (decide (0 < bestSalary aj.job) && decide (bestSalary aj.job < minSalary)) then false
  else true

/-- The `job_min_salary || job_max_salary || Infinity` key of the
`salary-low` sort; `none` stands for `Infinity`. -/
def salaryLowKey (job : Job) : Option Nat :=
  if job.job_min_salary ≠ 0 then some job.job_min_salary
  else if job.job_max_salary ≠ 0 then some job.job_max_salary
  else none

/-- Comparison under the `salary-low` key, `none` largest. -/
def salaryLowLe (a b : AnnotatedJob) : Bool :=
  match salaryLowKey a.job, salaryLowKey b.job with
  | _, none => true
  | none, some _ => false
  | some x, some y => x ≤ y

/-- filters.js `sortJobs(jobs, sortBy)`; the numeric comparators of
`Array.prototype.sort` are modelled by a stable merge sort on the
corresponding keys. -/
def sortJobs (jobs : List AnnotatedJob) (sortBy : String) : List AnnotatedJob :=
  if sortBy = "relevance" then
    jobs.mergeSort (fun a b => b.relevanceScore ≤ a.relevanceScore)
  else if sortBy = "date" then
    jobs.mergeSort (fun a b => b.job.job_posted_ts ≤ a.job.job_posted_ts)
  else if sortBy = "salary-high" then
    jobs.mergeSort (fun a b => bestSalary b.job ≤ bestSalary a.job)
  else if sortBy = "salary-low" then
    jobs.mergeSort salaryLowLe
  else jobs

/-- filters.js `applyFilters(jobs, filterOptions)`. -/
def applyFilters (jobs : List Job) (opts : FilterOptions) : List AnnotatedJob :=
  let annotated := jobs.map (annotateJob opts)
  let filtered := annotated.filter (jobPasses opts.categories opts.states opts.minSalary)
  sortJobs filtered opts.sortBy

/-! ## API module (config-template.js `JobsAPI`) -/

/-- The per-query option bundle carried by a query spec. Absent JavaScript
properties are encoded by the neutral values `""`, `[]`, `false`: the
consumers (`searchJobs` parameter assembly) treat absence and these values
identically. -/
structure QueryOptions where
  datePosted : String
  page : Nat
  employmentTypes : List String
  remoteOnly : Bool
  deriving Repr, DecidableEq

/-- One element of the list produced by `buildSearchQueries`. -/
structure QuerySpec where
  query : String
  options : QueryOptions
  deriving Repr, DecidableEq

/-- Caller-supplied search options. `states = none` encodes an absent
(falsy) `options.states`; `datePosted = ""` and `page = 0` encode the falsy
values defaulted by `options.datePosted || 'week'` and `options.page || 1`. -/
structure SearchOptions where
  datePosted : String := ""
  page : Nat := 0
  employmentTypes : List String := []
  states : Option (List String) := none
  deriving Repr

/-- config-template.js `buildSearchQueries(keywords, options)`. -/
def buildSearchQueries (keywords : String) (options : SearchOptions) : List QuerySpec :=
  let baseOptions : QueryOptions :=
    { datePosted := if options.datePosted = "" then "week" else options.datePosted
    , page := if options.page = 0 then 1 else options.page
    , employmentTypes := options.employmentTypes
    , remoteOnly := false }
  let selectedStates := options.states.getD (NE_STATES.map Prod.fst)
  let citiesToSearch := selectedStates.filterMap (fun stateCode =>
    (NE_STATES.find? (fun p => p.1 == stateCode)).map
      (fun p => p.2.cities.headD "" ++ ", " ++ stateCode))
  { query := keywords ++ " remote", options := { baseOptions with remoteOnly := true } }
    :: citiesToSearch.map (fun city =>
        { query := keywords ++ " in " ++ city, options := baseOptions })

/-- The deduplicating collection loop of `searchAllCategories`: fold one
job into the `(seenIds, allJobs)` accumulator. -/
def addJob (st : List String × List Job) (j : Job) : List String × List Job :=
  if j.job_id ∈ st.1 then st else (j.job_id :: st.1, st.2 ++ [j])

/-- config-template.js `searchAllCategories(keywords, options, onProgress)`.
The settled outcome of each `searchJobs` call is supplied by the
environment `fetch` (an `ok` value is the `data` array of the response; an
`error` is a rejection, carrying the thrown error's message).
`Promise.allSettled` concatenates the settled outcomes in query order
batch after batch, so the batch structure (concurrency 3) and the progress
callback do not affect the returned list, and the collection loop below
visits the outcomes exactly in query order. Only fulfilled outcomes
contribute jobs. -/
def searchAllCategories (fetch : QuerySpec → Except String (List Job))
    (keywords : String) (options : SearchOptions) : List Job :=
  let queries := buildSearchQueries keywords options
  let results := queries.map fetch
  (results.foldl (fun st r =>
    match r with
    | Except.ok jobs => jobs.foldl addJob st
    | Except.error _ => st) ([], [])).2

/-- config-template.js `withRetry(fn, maxRetries)`, instrumented with the
number of times `fn` was executed. `fn` is indexed by the attempt number;
`remaining` counts the attempts still allowed after the current one. On the
last attempt the loop ends and the recorded `lastError` (the error of that
attempt) is thrown, which coincides with rethrowing it directly. -/
def withRetryGo (fn : Nat → Except String α) (attempt : Nat) :
    Nat → Except String α × Nat
  | 0 => (fn attempt, 1)
  | remaining + 1 =>
    match fn attempt with
    | Except.ok v => (Except.ok v, 1)
    | Except.error e =>
      if e = "RATE_LIMITED" then (Except.error e, 1)
      else
        let rest := withRetryGo fn (attempt + 1) remaining
        (rest.1, rest.2 + 1)

/-- config-template.js `withRetry(fn, maxRetries = 2)`: the result together
with the number of executions of `fn`. -/
def withRetryRun (fn : Nat → Except String α) (maxRetries : Nat := 2) :
    Except String α × Nat :=
  withRetryGo fn 0 maxRetries

/-- The result of `withRetry` alone. -/
def withRetry (fn : Nat → Except String α) (maxRetries : Nat := 2) : Except String α :=
  (withRetryRun fn maxRetries).1

/-- The error message thrown by `fetchFromAPI` on HTTP 401/403. -/
def AUTH_ERROR_MSG : String := "Invalid API key. Please check your RapidAPI key and try again."

/-! ## Alerts module (js/alerts.js) -/

/-- The `preferences` bundle of an alert. -/
structure AlertPreferences where
  categories : List String
  states : List String
  minSalary : Nat
  jobTypes : List String
  deriving Repr, DecidableEq

/-- A persisted alert. -/
structure Alert where
  id : String
  keywords : List String
  themes : List String
  preferences : AlertPreferences
  frequency : String
  lastChecked : Option String
  created : String
  deriving Repr, DecidableEq

/-- The per-job filter predicate inside `checkAlerts` for one alert, given
the seen-jobs ledger. `checkAlerts` is called on raw (unannotated) search
results, so `job._qualification || Filters.isQualifyingJob(job)` is the
latter. -/
def alertJobMatches (seenJobs : List String) (alert : Alert) (job : Job) : Bool :=
  if decide (job.job_id ∈ seenJobs) then false
  else
    let hasKeywordMatch := alert.keywords.any (fun keyword =>
      let kw := jsLower keyword
      strIncludes (jsLower job.job_title) kw || strIncludes (jsLower job.job_description) kw)
    if !hasKeywordMatch && decide (0 < alert.keywords.length) then false
    else
      let qual := isQualifyingJob job
      if !qual.qualifies then false
      else if !decide (qual.category ∈ alert.preferences.categories) then false
      else if decide (0 < alert.preferences.minSalary)
          && (decide (0 < bestSalary job)
              && decide (bestSalary job < alert.preferences.minSalary)) then false
      else true

/-- One entry of `results.alertResults`. -/
structure AlertResult where
  alert : Alert
  newJobs : List Job
  deriving Repr, DecidableEq

/-- The `results` object accumulated by `checkAlerts`. -/
structure CheckResults where
  totalNew : Nat
  alertResults : List AlertResult
  deriving Repr, DecidableEq

/-- The `for (const alert of alerts)` loop of `checkAlerts`, accumulating
`totalNew` and `alertResults` in alert order. -/
def alertLoop (jobs : List Job) (seenJobs : List String) : List Alert → CheckResults
  | [] => { totalNew := 0, alertResults := [] }
  | a :: rest =>
    let matching := jobs.filter (alertJobMatches seenJobs a)
    let r := alertLoop jobs seenJobs rest
    if 0 < matching.length then
      { totalNew := matching.length + r.totalNew
      , alertResults := { alert := a, newJobs := matching } :: r.alertResults }
    else r

/-- alerts.js `markJobsSeen(jobIds)` acting on the stored ledger:
`[...new Set([...seen, ...jobIds])]`, then `splice(0, length - 1000)` when
the merged ledger exceeds 1000 entries. -/
def markJobsSeen (seenJobs : List String) (jobIds : List String) : List String :=
  let newSeen := jsSetDedup (seenJobs ++ jobIds)
  if 1000 < newSeen.length then newSeen.drop (newSeen.length - 1000) else newSeen

/-- The state returned by `checkAlerts`: the results object plus the
updated stored alerts and seen-jobs ledger. -/
structure CheckOutcome where
  results : CheckResults
  alerts : List Alert
  seenJobs : List String
  deriving Repr, DecidableEq

/-- alerts.js `checkAlerts(jobs)`, with the two localStorage collections
(alerts, seen-jobs ledger) passed and returned explicitly and `now` the
ISO timestamp written into `lastChecked`. The notification send has no
effect on the returned data. -/
def checkAlerts (now : String) (jobs : List Job) (alerts : List Alert)
    (seenJobs : List String) : CheckOutcome :=
  let results := alertLoop jobs seenJobs alerts
  let seenAfter :=
    if 0 < jobs.length then markJobsSeen seenJobs (jobs.map (fun j => j.job_id))
    else seenJobs
  let alertsAfter := alerts.map (fun a => { a with lastChecked := some now })
  { results := results, alerts := alertsAfter, seenJobs := seenAfter }

/-! ## Shared helper lemmas -/

/-- Every branch of the classifier cascade sets `qualifies` to `true`. -/
theorem isQualifyingJob_qualifies (job : Job) : (isQualifyingJob job).qualifies = true := by
  unfold isQualifyingJob
  dsimp only
  repeat' split
  all_goals rfl

/-- Every branch of the classifier cascade produces a configured category key. -/
theorem isQualifyingJob_category_mem (job : Job) :
    (isQualifyingJob job).category ∈ JOB_CATEGORY_KEYS := by
  unfold isQualifyingJob JOB_CATEGORY_KEYS
  dsimp only
  repeat' split
  all_goals simp

/-- The first-match loop grants its bonus exactly when some term matches. -/
theorem firstHitBonus_eq_if (b : Nat) (text : String) (l : List String) :
    firstHitBonus b text l = if l.any (fun t => strIncludes text t) then b else 0 := by
  induction l with
  | nil => rfl
  | cons t ts ih =>
    by_cases h : strIncludes text t
    · simp [firstHitBonus, h]
    · simp [firstHitBonus, h, ih]

/-- The first-match loop never exceeds its bonus. -/
theorem firstHitBonus_le (b : Nat) (text : String) (l : List String) :
    firstHitBonus b text l ≤ b := by
  rw [firstHitBonus_eq_if]
  split <;> omega

/-- The counting loop for the title bucket is the match count of the term list. -/
theorem countMatches_eq_countP (text : String) (l : List String) :
    countMatches text l = l.countP (fun t => strIncludes text t) := by
  induction l with
  | nil => rfl
  | cons t ts ih =>
    by_cases h : strIncludes text t <;>
      simp [countMatches, List.countP_cons, h, ih, Nat.add_comm]

/-- Upper bound of the parameterized scorer. -/
theorem scoreJobRelevanceAux_le_ten (sportsThemes marketingKeywords : List String)
    (job : Job) (keywords : String) (themes : List String) :
    scoreJobRelevanceAux sportsThemes marketingKeywords job keywords themes ≤ 10 := by
  unfold scoreJobRelevanceAux
  split
  · omega
  · dsimp only
    exact min_le_left _ _

/-- C2: for every listing, `isQualifyingJob` returns `qualifies = true` and a
category that is exactly one of the five configured categories; no listing is
rejected or left uncategorized. -/
theorem classifier_total (job : Job) :
    (isQualifyingJob job).qualifies = true
      ∧ (isQualifyingJob job).category ∈
          ["remote", "remote-us", "hybrid-ne", "onsite-ne", "remote-ne-company"] :=
  ⟨isQualifyingJob_qualifies job, isQualifyingJob_category_mem job⟩

/-- C8: a remote listing whose location resolves to a New England home region
(the classifier's own `isInNEState` test) is always categorized
`remote-ne-company`, never `remote-us` or `remote`, regardless of its other
fields. -/
theorem classifier_remote_ne_priority (job : Job)
    (hr : job.job_is_remote = true) (hne : isInNEState job = true) :
    (isQualifyingJob job).category = "remote-ne-company" := by
  unfold isQualifyingJob
  dsimp only
  rw [hr, hne]
  rfl

/-- A concrete remote listing from a Hartford, CT company, with distracting
other fields (hybrid title, US country). -/
def jobW8 : Job :=
  { job_id := "w8", job_is_remote := true, job_state := "CT",
    job_city := "Hartford", job_country := "US", job_title := "Hybrid Engineer" }

/-- Witness for C8 at a concrete remote Hartford, CT listing. -/
theorem classifier_remote_ne_priority_witness :
    jobW8.job_is_remote = true
    ∧ isInNEState jobW8 = true
    ∧ (isQualifyingJob jobW8).category = "remote-ne-company" :=
  ⟨rfl, by decide, classifier_remote_ne_priority jobW8 rfl (by decide)⟩

/-- C6: the relevance score is an integer in the closed range 0..10 (the `ℕ`
codomain expresses that `Math.round` of the nonnegative accumulated total is
a nonnegative integer), and the neutral default 5 is returned when both
keywords and themes are empty. -/
theorem score_in_range (job : Job) (keywords : String) (themes : List String) :
    0 ≤ scoreJobRelevance job keywords themes
      ∧ scoreJobRelevance job keywords themes ≤ 10
      ∧ (keywords = "" → themes = [] → scoreJobRelevance job keywords themes = 5) := by
  refine ⟨Nat.zero_le _, scoreJobRelevanceAux_le_ten _ _ job keywords themes, ?_⟩
  intro hk ht
  subst hk; subst ht
  rfl

/-- A concrete listing used to witness the neutral-default score. -/
def jobW6 : Job := { job_title := "Ski Instructor" }

/-- Witness for C6 at a concrete listing with empty keywords and themes. -/
theorem score_in_range_witness :
    0 ≤ scoreJobRelevance jobW6 "" []
      ∧ scoreJobRelevance jobW6 "" [] ≤ 10
      ∧ scoreJobRelevance jobW6 "" [] = 5 :=
  ⟨(score_in_range jobW6 "" []).1, (score_in_range jobW6 "" []).2.1,
    (score_in_range jobW6 "" []).2.2 rfl rfl⟩

/-- A listing whose title contains the token of the repeated-keywords
counterexample; its description, employer name and highlights are empty, so
only the title bucket can react to the keyword tokens. -/
def jobGo : Job := { job_title := "golang dev" }

/-- Counterexample to C4 as stated: the token list is not deduplicated, so
the keywords string "go go" (distinct terms: just "go") scores the title
bucket at 2 × 1.5 = 3 instead of 1.5, raising the score from 2 to 3. -/
theorem title_bucket_distinct_counterexample :
    tokenize "go go" = ["go", "go"]
    ∧ scoreJobRelevance jobGo "go" [] = 2
    ∧ scoreJobRelevance jobGo "go go" [] = 3 :=
  ⟨by decide, by decide, by decide⟩

/-- C4 (amended): each occurrence of a keyword token found as a substring of
the title contributes 1.5 (3 half-points) to the title bucket, counted with
multiplicity — repeating a matching token in the keywords string counts
again and can only raise the capped title bucket. -/
theorem title_bucket_counts_occurrences (job : Job) (kw : String) :
    countMatches (jsLower job.job_title) (tokenize kw)
      = (tokenize kw).countP (fun t => strIncludes (jsLower job.job_title) t)
    ∧ (∀ t ts, strIncludes (jsLower job.job_title) t = true →
        countMatches (jsLower job.job_title) (t :: ts)
          = countMatches (jsLower job.job_title) ts + 1)
    ∧ (∀ t ts, min 6 (3 * countMatches (jsLower job.job_title) ts)
        ≤ min 6 (3 * countMatches (jsLower job.job_title) (t :: ts))) := by
  refine ⟨countMatches_eq_countP _ _, ?_, ?_⟩
  · intro t ts h
    simp only [countMatches, h, if_true]
    omega
  · intro t ts
    simp only [countMatches]
    split <;> omega

/-- Witness for C4 (amended) at the concrete repeated token. -/
theorem title_bucket_counts_occurrences_witness :
    strIncludes (jsLower jobGo.job_title) "go" = true
    ∧ countMatches (jsLower jobGo.job_title) ("go" :: ["go"])
        = countMatches (jsLower jobGo.job_title) ["go"] + 1 :=
  ⟨by decide, (title_bucket_counts_occurrences jobGo "go").2.1 "go" ["go"] (by decide)⟩

/-- A listing without any emphasis-topic term. -/
def jobSkiA : Job := { job_title := "senior engineer" }

/-- The same listing except that its description contains the emphasis-topic
term "ski" (outside the title). -/
def jobSkiB : Job := { job_title := "senior engineer", job_description := "ski resort" }

/-- Counterexample to C5 as stated: with emphasis-topic list ["ski"], the
listing containing "ski" in its combined text receives the 0.5 anywhere-hit
bonus pre-rounding, but its rounded score equals that of the
otherwise-identical listing without the term (both 2, well below the cap):
rounding absorbs a lone 0.5, so the bonus-bearing listing does not score
strictly higher. -/
theorem sports_bonus_strictness_counterexample :
    strIncludes (jsLower jobSkiB.job_title ++ " " ++ jsLower jobSkiB.job_description
        ++ " " ++ jsLower jobSkiB.employer_name) "ski" = true
    ∧ strIncludes (jsLower jobSkiA.job_title ++ " " ++ jsLower jobSkiA.job_description
        ++ " " ++ jsLower jobSkiA.employer_name) "ski" = false
    ∧ scoreJobRelevanceAux ["ski"] [] jobSkiB "engineer" []
        = scoreJobRelevanceAux ["ski"] [] jobSkiA "engineer" []
    ∧ scoreJobRelevanceAux ["ski"] [] jobSkiA "engineer" [] = 2 :=
  ⟨by decide, by decide, by decide, by decide⟩

/-- C5 (amended): the two bonus loops grant their stated weights once, on
the first matching term (first conjunct: the loop equals its
first-match-only specification); the bonus terms never lower and can only
raise or keep the rounded score (second conjunct: monotonicity — strictness
can be absorbed by rounding, and the bucket caps apply); and the shipped
config.js configures neither list, so the repository scorer coincides with
the bonus-free scorer (third conjunct). -/
theorem sports_marketing_bonus (sportsThemes marketingKeywords : List String)
    (job : Job) (keywords : String) (themes : List String) :
    (∀ (b : Nat) (text : String) (l : List String),
      firstHitBonus b text l = if l.any (fun t => strIncludes text t) then b else 0)
    ∧ scoreJobRelevanceAux [] [] job keywords themes
        ≤ scoreJobRelevanceAux sportsThemes marketingKeywords job keywords themes
    ∧ scoreJobRelevance job keywords themes = scoreJobRelevanceAux [] [] job keywords themes := by
  refine ⟨firstHitBonus_eq_if, ?_, rfl⟩
  unfold scoreJobRelevanceAux
  split
  · exact le_refl _
  · dsimp only
    simp only [firstHitBonus]
    omega

/-- Membership is preserved by every branch of `sortJobs`. -/
theorem mem_sortJobs {aj : AnnotatedJob} {l : List AnnotatedJob} {s : String} :
    aj ∈ sortJobs l s ↔ aj ∈ l := by
  unfold sortJobs
  repeat' split
  all_goals simp [List.mem_mergeSort]

/-- C9: with a positive minimum-salary floor, a listing whose best-known
salary (max, else min, else 0) is 0 is never excluded by the floor, and one
whose best-known salary equals the floor is retained (inclusive boundary),
whenever the listing also passes the category and state checks. -/
theorem salary_floor_inclusive (jobs : List Job) (opts : FilterOptions) (job : Job)
    (hmem : job ∈ jobs) (hmin : 0 < opts.minSalary)
    (hsal : bestSalary job = 0 ∨ bestSalary job = opts.minSalary)
    (hcat : (isQualifyingJob job).category ∈ opts.categories)
    (hstate : ∀ s, getJobNEState job = some s →
        (isQualifyingJob job).category ∈ locationCategories → s ∈ opts.states) :
    annotateJob opts job ∈ applyFilters jobs opts := by
  unfold applyFilters
  refine mem_sortJobs.mpr (List.mem_filter.mpr ⟨List.mem_map_of_mem _ hmem, ?_⟩)
  unfold jobPasses annotateJob
  dsimp only
  have hthird : (decide ((isQualifyingJob job).category ∈ locationCategories)
      && (match getJobNEState job with
          | some s => !decide (s ∈ opts.states)
          | none => false)) = false := by
    by_cases hloc : (isQualifyingJob job).category ∈ locationCategories
    · cases hgs : getJobNEState job with
      | none => simp
      | some s => simp [decide_eq_true (hstate s hgs hloc)]
    · simp [hloc]
  have hfourth : (decide (0 < opts.minSalary)
      && (decide (0 < bestSalary job) && decide (bestSalary job < opts.minSalary))) = false := by
    rcases hsal with h0 | heq
    · simp [h0]
    · simp [heq]
  rw [isQualifyingJob_qualifies job, decide_eq_true hcat, hthird, hfourth]
  simp

/-- Filter criteria with a positive salary floor, used to witness C9. -/
def optsW9 : FilterOptions := { minSalary := 50000, keywords := "engineer" }

/-- A concrete Hartford on-site listing whose best-known salary exactly
equals the 50000 floor of `optsW9`. -/
def jobW9 : Job :=
  { job_id := "w9", job_title := "Engineer", job_state := "CT",
    job_city := "Hartford", job_max_salary := 50000 }

/-- Witness for C9 at the concrete boundary listing. -/
theorem salary_floor_inclusive_witness :
    annotateJob optsW9 jobW9 ∈ applyFilters [jobW9] optsW9 :=
  salary_floor_inclusive [jobW9] optsW9 jobW9 (by simp) (by decide)
    (Or.inr (by decide)) (by decide)
    (by
      intro s hs hloc
      have h0 : getJobNEState jobW9 = some "CT" := by decide
      rw [h0] at hs
      obtain rfl : s = "CT" := (Option.some.inj hs).symm
      decide)

/-- The length of a `filterMap` is the number of elements on which the
function is defined. -/
theorem length_filterMap_eq_length_filter (f : α → Option β) (l : List α) :
    (l.filterMap f).length = (l.filter (fun a => (f a).isSome)).length := by
  induction l with
  | nil => rfl
  | cons a as ih => cases h : f a <;> simp [List.filterMap_cons, h, ih, List.filter_cons]

/-- Counterexample to C7 as stated: the regional specs follow the order of
the caller's selected-regions list, not the configured CT-first order
(selecting [MA, CT] puts Boston, MA before Hartford, CT); and a selected
code with no configured entry is skipped, so the plan length is not
1 + |R| for R = [CT, XX]. -/
theorem plan_order_counterexample :
    (buildSearchQueries "engineer" { states := some ["MA", "CT"] }).map (fun q => q.query)
      = ["engineer remote", "engineer in Boston, MA", "engineer in Hartford, CT"]
    ∧ ["engineer remote", "engineer in Boston, MA", "engineer in Hartford, CT"]
      ≠ ["engineer remote", "engineer in Hartford, CT", "engineer in Boston, MA"]
    ∧ (buildSearchQueries "engineer" { states := some ["CT", "XX"] }).length = 2 :=
  ⟨by decide, by decide, by decide⟩

/-- C7 (amended): for every keywords string and selected region list R, the
plan has exactly 1 + |configured members of R| specs (codes without a
`CONFIG.NE_STATES` entry are skipped); the first element is always the
remote variant (keywords + " remote", remote-only flag set); the remaining
specs follow R's own order (the stable configured order applies only to the
default all-regions selection), each formatted
"keywords in primaryCity, regionCode". -/
theorem plan_shape (kw : String) (opts : SearchOptions) (R : List String)
    (hR : opts.states = some R) :
    (buildSearchQueries kw opts).length
        = 1 + (R.filter (fun c => (NE_STATES.find? (fun p => p.1 == c)).isSome)).length
    ∧ (buildSearchQueries kw opts).head? = some
        { query := kw ++ " remote"
        , options :=
          { datePosted := if opts.datePosted = "" then "week" else opts.datePosted
          , page := if opts.page = 0 then 1 else opts.page
          , employmentTypes := opts.employmentTypes
          , remoteOnly := true } }
    ∧ ((buildSearchQueries kw opts).tail).map (fun q => q.query)
        = R.filterMap (fun c => (NE_STATES.find? (fun p => p.1 == c)).map
            (fun p => kw ++ " in " ++ p.2.cities.headD "" ++ ", " ++ c)) := by
  unfold buildSearchQueries
  rw [hR]
  dsimp only [Option.getD_some]
  refine ⟨?_, rfl, ?_⟩
  · simp [length_filterMap_eq_length_filter, Nat.add_comm]
  · simp only [List.tail_cons, List.map_filterMap]
    refine List.filterMap_congr (fun c _ => ?_)
    cases NE_STATES.find? (fun p => p.1 == c) <;> simp [String.append_assoc]

/-- Witness for C7 (amended) at keywords "engineer" and selection [CT]. -/
theorem plan_shape_witness :
    (buildSearchQueries "engineer" { states := some ["CT"] }).length = 2 :=
  (plan_shape "engineer" { states := some ["CT"] } ["CT"] rfl).1.trans (by decide)

/-- A listing returned by the remote query of the C1 scenario. -/
def jobRemoteHit : Job := { job_id := "r1", job_title := "Engineer" }

/-- Environment in which every `searchJobs` call rejects with RATE_LIMITED
(the rate-limiter window already holds maxRequests timestamps, so
`fetchFromAPI` throws before issuing any call). -/
def fetchAllRateLimited : QuerySpec → Except String (List Job) :=
  fun _ => Except.error "RATE_LIMITED"

/-- Environment in which the remote query succeeds and every regional query
rejects with RATE_LIMITED. -/
def fetchFirstOkThenRateLimited : QuerySpec → Except String (List Job) := fun q =>
  if q.query = "engineer remote" then Except.ok [jobRemoteHit]
  else Except.error "RATE_LIMITED"

/-- C1 evaluated at the failing input: when the RateLimiter denies the
queries, the orchestrated search does not fail fast — `Promise.allSettled`
captures the RATE_LIMITED rejections, the operation completes and returns
an empty (first conjunct) or partial (second conjunct) result list. -/
theorem rate_limit_swallowed :
    searchAllCategories fetchAllRateLimited "engineer" {} = []
    ∧ searchAllCategories fetchFirstOkThenRateLimited "engineer" {} = [jobRemoteHit] :=
  ⟨by decide, by decide⟩

/-- A call that always fails with the authentication error message. -/
def authAlwaysFail : Nat → Except String Nat := fun _ => Except.error AUTH_ERROR_MSG

/-- A call that fails with the authentication error message on the first
attempt and succeeds on the second. -/
def authFailThenOk : Nat → Except String Nat := fun attempt =>
  if attempt = 0 then Except.error AUTH_ERROR_MSG else Except.ok 42

/-- A call that always fails with RATE_LIMITED. -/
def rateLimitedAlways : Nat → Except String Nat := fun _ => Except.error "RATE_LIMITED"

/-- Counterexample to C3 as stated: `withRetry` re-executes after an
authentication error — an always-auth-failing call is executed 3 times (not
1), and a call that auth-fails then succeeds is re-executed and returns the
second attempt's value; only RATE_LIMITED stops after 1 execution. -/
theorem auth_retried_counterexample :
    (withRetryRun authAlwaysFail 2).2 = 3
    ∧ withRetry authFailThenOk 2 = Except.ok 42
    ∧ (withRetryRun authFailThenOk 2).2 = 2
    ∧ (withRetryRun rateLimitedAlways 2).2 = 1 :=
  ⟨rfl, rfl, rfl, rfl⟩

/-- C3 (amended): `withRetry` treats only the exact message RATE_LIMITED as
non-retriable (one execution, error propagated); a call failing with any
other error — including the authentication error — is re-executed, so an
auth failure on the first attempt followed by a success is retried and
succeeds rather than surfacing as a terminal failure. -/
theorem retry_policy {α : Type} (fn : Nat → Except String α) (maxRetries : Nat) :
    (fn 0 = Except.error "RATE_LIMITED" →
        withRetry fn maxRetries = Except.error "RATE_LIMITED"
          ∧ (withRetryRun fn maxRetries).2 = 1)
    ∧ (∀ e v, e ≠ "RATE_LIMITED" → fn 0 = Except.error e → fn 1 = Except.ok v →
        1 ≤ maxRetries →
        withRetry fn maxRetries = Except.ok v ∧ (withRetryRun fn maxRetries).2 = 2) := by
  constructor
  · intro h
    cases maxRetries with
    | zero =>
      unfold withRetry withRetryRun withRetryGo
      rw [h]
      exact ⟨rfl, rfl⟩
    | succ r =>
      unfold withRetry withRetryRun withRetryGo
      rw [h]
      simp
  · intro e v hne h0 h1 hm
    obtain ⟨r, rfl⟩ : ∃ r, maxRetries = r + 1 := ⟨maxRetries - 1, by omega⟩
    cases r with
    | zero =>
      unfold withRetry withRetryRun
      simp [withRetryGo, h0, h1, hne]
    | succ r2 =>
      unfold withRetry withRetryRun
      simp [withRetryGo, h0, h1, hne]

/-- Witness for C3 (amended): the auth-fail-then-succeed call, retried with
the default budget of 2, is executed twice and returns the second value. -/
theorem retry_policy_witness :
    withRetry authFailThenOk 2 = Except.ok 42
      ∧ (withRetryRun authFailThenOk 2).2 = 2 :=
  (retry_policy authFailThenOk 2).2 AUTH_ERROR_MSG 42 (by decide) rfl rfl (by decide)

/-! ## Seen-jobs ledger (C10) -/

/-- Folding fresh, duplicate-free entries into the dedup accumulator appends
them all. -/
theorem foldl_dedupStep_disjoint (l : List String) :
    ∀ acc, l.Nodup → (∀ x ∈ l, x ∉ acc) → l.foldl dedupStep acc = acc ++ l := by
  induction l with
  | nil => intro acc _ _; simp
  | cons x xs ih =>
    intro acc hnd h
    have hx : x ∉ acc := h x (List.mem_cons_self _ _)
    rw [List.foldl_cons, show dedupStep acc x = acc ++ [x] from if_neg hx,
      ih (acc ++ [x]) (List.nodup_cons.mp hnd).2 ?_]
    · simp
    · intro y hy hmem
      rcases List.mem_append.mp hmem with hya | hyx
      · exact h y (List.mem_cons_of_mem _ hy) hya
      · rw [List.mem_singleton] at hyx
        subst hyx
        exact (List.nodup_cons.mp hnd).1 hy

/-- Membership in the dedup fold is membership in the accumulator or the input. -/
theorem mem_foldl_dedupStep (l : List String) :
    ∀ acc x, x ∈ l.foldl dedupStep acc ↔ x ∈ acc ∨ x ∈ l := by
  induction l with
  | nil => simp
  | cons a as ih =>
    intro acc x
    rw [List.foldl_cons, ih]
    unfold dedupStep
    by_cases ha : a ∈ acc
    · rw [if_pos ha]
      constructor
      · rintro (h | h)
        · exact Or.inl h
        · exact Or.inr (List.mem_cons_of_mem _ h)
      · rintro (h | h)
        · exact Or.inl h
        · rcases List.mem_cons.mp h with rfl | h2
          · exact Or.inl ha
          · exact Or.inr h2
    · rw [if_neg ha]
      simp only [List.mem_append, List.mem_singleton, List.mem_cons]
      tauto

/-- Deduplicating a duplicate-free list is the identity. -/
theorem jsSetDedup_of_nodup (l : List String) (h : l.Nodup) : jsSetDedup l = l := by
  unfold jsSetDedup
  simpa using foldl_dedupStep_disjoint l [] h (by simp)

/-- Deduplication preserves membership. -/
theorem mem_jsSetDedup {x : String} {l : List String} : x ∈ jsSetDedup l ↔ x ∈ l := by
  unfold jsSetDedup
  simp [mem_foldl_dedupStep]

/-- The 999 distinct filler identifiers "aa", "aaa", … of the full ledger. -/
def seenTail : List String :=
  (List.range 999).map (fun i => String.mk (List.replicate (i + 2) 'a'))

/-- A seen-jobs ledger at the 1000-entry capacity whose oldest entry is the
identifier "a". -/
def seenInit : List String := "a" :: seenTail

/-- No identifier shorter than two characters occurs among the fillers. -/
theorem not_mem_seenTail_of_short (s : String) (hs : s.length < 2) : s ∉ seenTail := by
  intro hmem
  obtain ⟨i, _, heq⟩ := List.mem_map.mp hmem
  have hd := congrArg (fun t => t.data.length) heq
  simp at hd
  omega

/-- The filler identifiers are pairwise distinct. -/
theorem seenTail_nodup : seenTail.Nodup := by
  refine List.Nodup.map ?_ (List.nodup_range 999)
  intro i j h
  have hd := congrArg (fun t => t.data.length) h
  simp at hd
  omega

/-- Length of the identifier "a". -/
theorem a_len : ("a" : String).length = 1 := rfl

/-- Length of the identifier "b". -/
theorem b_len : ("b" : String).length = 1 := rfl

/-- The full ledger has no duplicates. -/
theorem seenInit_nodup : seenInit.Nodup :=
  List.nodup_cons.mpr ⟨not_mem_seenTail_of_short "a" (by rw [a_len]; omega), seenTail_nodup⟩

/-- The filler part of the ledger has 999 entries. -/
theorem seenTail_length : seenTail.length = 999 := by simp [seenTail]

/-- Marking ["a", "b"] on the full ledger evicts the oldest entry "a": "a"
keeps its original front position in the merged set, the merged set has 1001
entries, and the splice drops it. -/
theorem markJobsSeen_eviction :
    markJobsSeen seenInit ["a", "b"] = seenTail ++ ["b"] := by
  have hb_init : ("b" : String) ∉ seenInit := by
    intro h
    rcases List.mem_cons.mp h with h1 | h2
    · exact absurd h1 (by decide)
    · exact not_mem_seenTail_of_short "b" (by rw [b_len]; omega) h2
  have hdedup : jsSetDedup (seenInit ++ ["a", "b"]) = seenInit ++ ["b"] := by
    unfold jsSetDedup
    rw [List.foldl_append]
    have h0 : seenInit.foldl dedupStep [] = seenInit := by
      simpa using foldl_dedupStep_disjoint seenInit [] seenInit_nodup (by simp)
    rw [h0]
    simp only [List.foldl_cons, List.foldl_nil]
    rw [show dedupStep seenInit "a" = seenInit from if_pos (List.mem_cons_self _ _)]
    exact if_neg hb_init
  unfold markJobsSeen
  rw [hdedup]
  have hlen : (seenInit ++ ["b"]).length = 1001 := by
    simp [seenInit, seenTail_length]
  rw [if_pos (by rw [hlen]; omega), hlen]
  norm_num
  simp [seenInit]

/-- A job whose identifier is the oldest ledger entry. -/
def jobSeenA : Job := { job_id := "a" }

/-- A job with a fresh identifier. -/
def jobSeenB : Job := { job_id := "b" }

/-- An alert with no keywords that accepts every category and state. -/
def alertAll : Alert :=
  { id := "al1", keywords := [], themes := []
  , preferences :=
    { categories := JOB_CATEGORY_KEYS, states := NE_STATE_CODES
    , minSalary := 0, jobTypes := ["FULLTIME"] }
  , frequency := "daily", lastChecked := none, created := "t0" }

/-- The first check on the full ledger leaves a ledger without "a". -/
theorem checkAlerts_first_seen :
    (checkAlerts "t1" [jobSeenA, jobSeenB] [] seenInit).seenJobs = seenTail ++ ["b"] := by
  unfold checkAlerts
  dsimp only
  simp only [List.map_cons, List.map_nil, List.length_cons, List.length_nil]
  rw [if_pos (by omega)]
  exact markJobsSeen_eviction

/-- The identifier "a" is gone from the post-eviction ledger. -/
theorem not_a_mem_evicted : ("a" : String) ∉ seenTail ++ ["b"] := by
  intro h
  rcases List.mem_append.mp h with h1 | h2
  · exact not_mem_seenTail_of_short "a" (by rw [a_len]; omega) h1
  · rw [List.mem_singleton] at h2
    exact absurd h2 (by decide)

/-- Counterexample to C10 as stated: with a seen ledger at the 1000-entry
capacity whose oldest entry is "a", running checkAlerts on the non-empty
list [job "a", job "b"] evicts "a" (an already-seen id keeps its old
first-occurrence position in the merged set and the capacity splice drops
the front), so a job of the checked list is NOT in the ledger afterwards,
and a later check with an alert counts that listing in totalNew again. -/
theorem ledger_eviction_counterexample :
    jobSeenA ∈ [jobSeenA, jobSeenB]
    ∧ jobSeenA.job_id ∉ (checkAlerts "t1" [jobSeenA, jobSeenB] [] seenInit).seenJobs
    ∧ (checkAlerts "t2" [jobSeenA] [alertAll]
        (checkAlerts "t1" [jobSeenA, jobSeenB] [] seenInit).seenJobs).results.totalNew = 1 := by
  refine ⟨List.mem_cons_self _ _, ?_, ?_⟩
  · rw [checkAlerts_first_seen]
    exact not_a_mem_evicted
  · rw [checkAlerts_first_seen]
    have hmatch : alertJobMatches (seenTail ++ ["b"]) alertAll jobSeenA = true := by
      unfold alertJobMatches
      rw [show jobSeenA.job_id = "a" from rfl, decide_eq_false not_a_mem_evicted]
      decide
    unfold checkAlerts
    dsimp only
    simp [alertLoop, List.filter_cons, hmatch]

/-- Every result entry of the alert loop is the filter of the checked jobs
by its alert's match predicate. -/
theorem alertLoop_newJobs (jobs : List Job) (seen : List String) (alerts : List Alert) :
    ∀ r ∈ (alertLoop jobs seen alerts).alertResults,
      ∃ a, r.newJobs = jobs.filter (alertJobMatches seen a) := by
  induction alerts with
  | nil => intro r hr; simp [alertLoop] at hr
  | cons a as ih =>
    intro r hr
    unfold alertLoop at hr
    dsimp only at hr
    split at hr
    · rcases List.mem_cons.mp hr with rfl | h2
      · exact ⟨a, rfl⟩
      · exact ih r h2
    · exact ih r hr

/-- C10 (amended): after checkAlerts on a non-empty jobs list, every checked
job's identifier is in the seen ledger PROVIDED the merged deduplicated
ledger stays within the 1000-entry capacity — when it overflows, the splice
evicts the oldest first-occurrence entries, which can include identifiers of
jobs in the current list that were already present near the front; and a
listing whose identifier is in the ledger at check time is never part of any
alert's new-job matches of that check. -/
theorem ledger_amended (now : String) (jobs : List Job) (alerts : List Alert) (seen : List String)
    (hlen : (jsSetDedup (seen ++ jobs.map (fun j => j.job_id))).length ≤ 1000) :
    (∀ j ∈ jobs, j.job_id ∈ (checkAlerts now jobs alerts seen).seenJobs)
    ∧ (∀ j ∈ jobs, j.job_id ∈ seen →
        ∀ r ∈ (checkAlerts now jobs alerts seen).results.alertResults, j ∉ r.newJobs) := by
  constructor
  · intro j hj
    unfold checkAlerts
    dsimp only
    rw [if_pos (List.length_pos.mpr (List.ne_nil_of_mem hj))]
    unfold markJobsSeen
    dsimp only
    rw [if_neg (by omega)]
    exact mem_jsSetDedup.mpr (List.mem_append.mpr (Or.inr (List.mem_map_of_mem _ hj)))
  · intro j hj hseen r hr
    unfold checkAlerts at hr
    dsimp only at hr
    obtain ⟨a, ha⟩ := alertLoop_newJobs jobs seen alerts r hr
    rw [ha]
    intro hmem
    have hpred := (List.mem_filter.mp hmem).2
    unfold alertJobMatches at hpred
    rw [decide_eq_true hseen] at hpred
    simp at hpred

/-- A job to witness the amended ledger claim on a small ledger. -/
def jobW10 : Job := { job_id := "w10" }

/-- Witness for C10 (amended) on an empty ledger and a single job. -/
theorem ledger_amended_witness :
    (jsSetDedup ([] ++ [jobW10].map (fun j => j.job_id))).length ≤ 1000
    ∧ jobW10.job_id ∈ (checkAlerts "t" [jobW10] [] []).seenJobs :=
  ⟨by decide,
    (ledger_amended "t" [jobW10] [] [] (by decide)).1 jobW10 (List.mem_cons_self _ _)⟩

end NEJobs
